import Mathlib

/-
Verification of the `my_vec` crate (`src/crates/my_vec/src/lib.rs` and
`src/crates/my_vec/src/raw.rs`): a growable contiguous container built on raw
allocation primitives.

Embedding conventions:
* `usize` values (lengths, capacities, indices) are modelled as `Nat`.
  In the source, the only arithmetic that could overflow a 64-bit `usize`
  (`capacity * 2`, `length + 1`) panics on overflow under Rust's checked
  semantics, so the non-overflowing domain is the one modelled.
* Heap memory is modelled explicitly: a buffer carries the `capacity` field of
  the struct AND a ghost `allocSize`, the number of element slots actually
  allocated at the moment (0 for the dangling/no-allocation state).  The two
  can diverge, which is exactly what some claims are about.
* Slot contents are a total function `Nat → Option α`; `none` is
  uninitialized memory.  `realloc` preserves contents, so `grow` leaves the
  slot map unchanged.
* The allocator is an oracle `allocOk : Nat → Bool` deciding, per requested
  byte size, whether `alloc`/`realloc` returns a non-null pointer.
* `Layout::array::<T>(n)` (per its Rust implementation) fails iff
  `size_of::<T>() ≠ 0 ∧ n > (isize::MAX - (align - 1)) / size_of::<T>()`;
  its `size()` is `n * size_of::<T>()`.
-/

namespace MyVec

/-- usize::MAX on a 64-bit platform. -/
def USIZE_MAX : Nat := 2 ^ 64 - 1

/-- Mirrors `pub const MAX_ALLOCATION_SIZE: usize = isize::MAX as _;` (lib.rs line 15). -/
def MAX_ALLOCATION_SIZE : Nat := 2 ^ 63 - 1

/-- The environment a growth call runs in: the element type's size and
alignment in bytes, and the allocator oracle saying which requested byte
sizes the global allocator can serve. -/
structure AllocCtx where
  elemSize : Nat
  align : Nat
  allocOk : Nat → Bool

/-- Models `Layout::max_size_for_align(align)`, i.e. `isize::MAX - (align - 1)`. -/
def layoutMax (align : Nat) : Nat := MAX_ALLOCATION_SIZE - (align - 1)

/-- Success condition of `Layout::array::<T>(n)`: mirrors
`if element_size != 0 && n > max_size_for_align(align) / element_size { Err }`. -/
def layoutArrayOk (elemSize align n : Nat) : Bool :=
  elemSize == 0 || decide (n ≤ layoutMax align / elemSize)

/-- Models `Layout::array::<T>(n).size()`, i.e. `n * size_of::<T>()`. -/
def layoutSize (elemSize n : Nat) : Nat := n * elemSize

/-- Models `GrowError` (error.rs): the three reported growth failures. Payloads
(`LayoutError`, `Layout`) carry no information the model needs. -/
inductive GrowError where
  | Layout
  | AllocationTooLarge
  | AllocationFail
deriving DecidableEq

/-- Models `InsertError` (error.rs). -/
inductive InsertError where
  | Grow (e : GrowError)
  | IndexOutOfBounds
deriving DecidableEq

/-- Models `RawDynamicSizeArray<T>`: `capacity` is the struct field; `allocSize` is
the ghost count of slots the current allocation really holds (0 when
`elements` is the dangling sentinel); `slots` is the content of memory. -/
structure RawDynamicSizeArray (α : Type) where
  slots : Nat → Option α
  capacity : Nat
  allocSize : Nat

namespace RawDynamicSizeArray

/-- Models `NEW_CAPACITY`: `usize::MAX` for zero-sized element types, else `usize::MIN`. -/
def NEW_CAPACITY (elemSize : Nat) : Nat :=
  if elemSize = 0 then USIZE_MAX else 0

/-- Models `RawDynamicSizeArray::new()`: dangling pointer (no allocation), capacity
`NEW_CAPACITY`. -/
def new (α : Type) (elemSize : Nat) : RawDynamicSizeArray α :=
  { slots := fun _ => none, capacity := NEW_CAPACITY elemSize, allocSize := 0 }

/-- Models a `ptr::write` of `v` at slot `index`. -/
def write (b : RawDynamicSizeArray α) (index : Nat) (v : α) : RawDynamicSizeArray α :=
  { b with slots := fun j => if j = index then some v else b.slots j }

/-- Models `ptr::copy(p.add(index), p.add(index + 1), len - index)`: the memmove that
shifts slots `[index, len)` one to the right, used by insert. -/
def shiftRight (b : RawDynamicSizeArray α) (index len : Nat) : RawDynamicSizeArray α :=
  { b with slots := fun j => if index < j ∧ j ≤ len then b.slots (j - 1) else b.slots j }

/-- Models `ptr::copy(p.add(index + 1), p.add(index), len - index)`: the memmove that
shifts slots `(index, len]` one to the left, used by remove (here `len` is the
already-decremented length). -/
def shiftLeft (b : RawDynamicSizeArray α) (index len : Nat) : RawDynamicSizeArray α :=
  { b with slots := fun j => if index ≤ j ∧ j < len then b.slots (j + 1) else b.slots j }

/-- Models `RawDynamicSizeArray::grow` (lib.rs lines 52-92), step for step:
if `capacity == 0`, set `capacity := 1`, compute the layout, `alloc`;
otherwise compute the old layout, set `capacity := capacity * 2`, compute the
new layout, check it against `MAX_ALLOCATION_SIZE`, `realloc`.  A null
pointer from the allocator is `AllocationFail`.  Note the source updates the
`capacity` field before the allocation attempt and does not restore it on
failure; the model reproduces that. -/
def grow (c : AllocCtx) (b : RawDynamicSizeArray α) :
    RawDynamicSizeArray α × Option GrowError :=
  if b.capacity = 0 then
    let b1 : RawDynamicSizeArray α := { b with capacity := 1 }
    if layoutArrayOk c.elemSize c.align 1 then
      if c.allocOk (layoutSize c.elemSize 1) then
        ({ b1 with allocSize := 1 }, none)
      else
        (b1, some GrowError.AllocationFail)
    else
      (b1, some GrowError.Layout)
  else
    if layoutArrayOk c.elemSize c.align b.capacity then
      let b2 : RawDynamicSizeArray α := { b with capacity := b.capacity * 2 }
      if layoutArrayOk c.elemSize c.align b2.capacity then
        if layoutSize c.elemSize b2.capacity ≤ MAX_ALLOCATION_SIZE then
          if c.allocOk (layoutSize c.elemSize b2.capacity) then
            ({ b2 with allocSize := b2.capacity }, none)
          else
            (b2, some GrowError.AllocationFail)
        else
          (b2, some GrowError.AllocationTooLarge)
      else
        (b2, some GrowError.Layout)
    else
      (b, some GrowError.Layout)

/-- Models `larger_capacity` (raw.rs lines 47-53): `if capacity < 8 { 8 } else { capacity * 2 }`. -/
def larger_capacity (capacity : Nat) : Nat :=
  if capacity < 8 then 8 else capacity * 2

/-- Models `RawDynamicSizeArray::grow`, the raw.rs variant (raw.rs lines 59-99): identical
to the lib.rs variant except that the non-zero branch sets
`capacity := larger_capacity(capacity)` instead of `capacity * 2`.  Note the
`capacity == 0` branch still sets `capacity := 1`. -/
def growRawVariant (c : AllocCtx) (b : RawDynamicSizeArray α) :
    RawDynamicSizeArray α × Option GrowError :=
  if b.capacity = 0 then
    let b1 : RawDynamicSizeArray α := { b with capacity := 1 }
    if layoutArrayOk c.elemSize c.align 1 then
      if c.allocOk (layoutSize c.elemSize 1) then
        ({ b1 with allocSize := 1 }, none)
      else
        (b1, some GrowError.AllocationFail)
    else
      (b1, some GrowError.Layout)
  else
    if layoutArrayOk c.elemSize c.align b.capacity then
      let b2 : RawDynamicSizeArray α := { b with capacity := larger_capacity b.capacity }
      if layoutArrayOk c.elemSize c.align b2.capacity then
        if layoutSize c.elemSize b2.capacity ≤ MAX_ALLOCATION_SIZE then
          if c.allocOk (layoutSize c.elemSize b2.capacity) then
            ({ b2 with allocSize := b2.capacity }, none)
          else
            (b2, some GrowError.AllocationFail)
        else
          (b2, some GrowError.AllocationTooLarge)
      else
        (b2, some GrowError.Layout)
    else
      (b, some GrowError.Layout)

end RawDynamicSizeArray

/-- Models `DynamicSizeArray<T>` (lib.rs lines 111-114). -/
structure DynamicSizeArray (α : Type) where
  buffer : RawDynamicSizeArray α
  length : Nat

namespace DynamicSizeArray

/-- Models `DynamicSizeArray::new()`. -/
def new (α : Type) (elemSize : Nat) : DynamicSizeArray α :=
  { buffer := RawDynamicSizeArray.new α elemSize, length := 0 }

/-- Models `is_empty`. -/
def is_empty (s : DynamicSizeArray α) : Bool := s.length == 0

/-- Models `is_full`. -/
def is_full (s : DynamicSizeArray α) : Bool := s.length == s.buffer.capacity

/-- Models the `capacity` accessor. -/
def capacity (s : DynamicSizeArray α) : Nat := s.buffer.capacity

/-- Models `push_checked` (lib.rs lines 151-167): grow when full (propagating the
error), then `ptr::write` the element at offset `length` and increment the
length. -/
def push_checked (c : AllocCtx) (s : DynamicSizeArray α) (v : α) :
    DynamicSizeArray α × Option GrowError :=
  if s.is_full then
    match s.buffer.grow c with
    | (b, some e) => ({ s with buffer := b }, some e)
    | (b, none) =>
        ({ buffer := b.write s.length v, length := s.length + 1 }, none)
  else
    ({ buffer := s.buffer.write s.length v, length := s.length + 1 }, none)

/-- Models `pop` (lib.rs lines 173-190): `None` when empty, otherwise decrement the
length and `ptr::read` the slot at the new length. -/
def pop (s : DynamicSizeArray α) : DynamicSizeArray α × Option α :=
  if s.is_empty then
    (s, none)
  else
    ({ s with length := s.length - 1 }, s.buffer.slots (s.length - 1))

/-- Models `insert_checked` (lib.rs lines 192-223): reject `index > length`, grow when
full (propagating the error), memmove `[index, length)` one slot right,
`ptr::write` the element at `index`, increment the length. -/
def insert_checked (c : AllocCtx) (s : DynamicSizeArray α) (index : Nat) (v : α) :
    DynamicSizeArray α × Option InsertError :=
  if s.length < index then
    (s, some InsertError.IndexOutOfBounds)
  else if s.is_full then
    match s.buffer.grow c with
    | (b, some e) => ({ s with buffer := b }, some (InsertError.Grow e))
    | (b, none) =>
        ({ buffer := (b.shiftRight index s.length).write index v,
           length := s.length + 1 }, none)
  else
    ({ buffer := (s.buffer.shiftRight index s.length).write index v,
       length := s.length + 1 }, none)

/-- Models `remove_checked` (lib.rs lines 229-257): `None` when `index >= length`,
otherwise decrement the length, `ptr::read` the slot at `index`, memmove
`(index, old length)` one slot left. -/
def remove_checked (s : DynamicSizeArray α) (index : Nat) :
    DynamicSizeArray α × Option α :=
  if s.length ≤ index then
    (s, none)
  else
    ({ buffer := s.buffer.shiftLeft index (s.length - 1), length := s.length - 1 },
     s.buffer.slots index)

/-- The `Deref` view (lib.rs lines 260-274):
`slice::from_raw_parts(elements, length)`, i.e. the first `length` slots in
order. -/
def deref (s : DynamicSizeArray α) : List (Option α) :=
  (List.range s.length).map s.buffer.slots

/-- One public mutating operation with its arguments. -/
inductive Op (α : Type) where
  | push (v : α)
  | pop
  | insert (index : Nat) (v : α)
  | remove (index : Nat)

/-- The state after running one operation (results discarded). -/
def applyOp (c : AllocCtx) (s : DynamicSizeArray α) : Op α → DynamicSizeArray α
  | Op.push v => (s.push_checked c v).1
  | Op.pop => s.pop.1
  | Op.insert i v => (s.insert_checked c i v).1
  | Op.remove i => (s.remove_checked i).1

/-- States reachable from `new()` by any finite sequence of the public
mutators, successful or failed, under an adversarial allocator (a fresh
oracle may be chosen at every step). -/
inductive Reachable (elemSize align : Nat) : DynamicSizeArray α → Prop where
  | new : Reachable elemSize align (new α elemSize)
  | step (allocOk : Nat → Bool) (op : Op α) {s : DynamicSizeArray α} :
      Reachable elemSize align s →
      Reachable elemSize align (s.applyOp ⟨elemSize, align, allocOk⟩ op)

/-- Push a whole list left to right; the Bool is `true` iff every push
succeeded (the first failure stops the run, mirroring a caller that checks
each result). -/
def pushAll (c : AllocCtx) (s : DynamicSizeArray α) : List α → DynamicSizeArray α × Bool
  | [] => (s, true)
  | v :: vs =>
      match s.push_checked c v with
      | (s1, none) => pushAll c s1 vs
      | (s1, some _) => (s1, false)

/-- Pop `n` times, collecting the reported results in call order. -/
def popN (s : DynamicSizeArray α) : Nat → DynamicSizeArray α × List (Option α)
  | 0 => (s, [])
  | n + 1 =>
      let r := s.pop
      let rest := popN r.1 n
      (rest.1, r.2 :: rest.2)

end DynamicSizeArray

/-! Helper lemmas about `grow`. -/

namespace RawDynamicSizeArray

theorem grow_slots (c : AllocCtx) (b : RawDynamicSizeArray α) :
    ((b.grow c).1).slots = b.slots := by
  simp only [grow]
  repeat' split
  all_goals rfl

theorem grow_allocSize_of_err (c : AllocCtx) (b : RawDynamicSizeArray α)
    (e : GrowError) (h : (b.grow c).2 = some e) :
    ((b.grow c).1).allocSize = b.allocSize := by
  simp only [grow] at h ⊢
  repeat' split
  all_goals simp_all

theorem grow_capacity_mono (c : AllocCtx) (b : RawDynamicSizeArray α) :
    b.capacity ≤ ((b.grow c).1).capacity := by
  simp only [grow]
  repeat' split
  all_goals simp_all
  all_goals omega

theorem grow_capacity_of_ok (c : AllocCtx) (b : RawDynamicSizeArray α)
    (h : (b.grow c).2 = none) :
    ((b.grow c).1).capacity = if b.capacity = 0 then 1 else b.capacity * 2 := by
  simp only [grow] at h ⊢
  repeat' split
  all_goals simp_all

theorem grow_capacity_lt_of_ok (c : AllocCtx) (b : RawDynamicSizeArray α)
    (h : (b.grow c).2 = none) :
    b.capacity < ((b.grow c).1).capacity := by
  rw [grow_capacity_of_ok c b h]
  split
  · omega
  · omega

theorem grow_allocSize_of_ok (c : AllocCtx) (b : RawDynamicSizeArray α)
    (h : (b.grow c).2 = none) :
    ((b.grow c).1).allocSize = ((b.grow c).1).capacity := by
  simp only [grow] at h ⊢
  repeat' split
  all_goals simp_all

@[simp]
theorem write_slots (b : RawDynamicSizeArray α) (index : Nat) (v : α) :
    (b.write index v).slots = fun j => if j = index then some v else b.slots j := rfl

@[simp]
theorem write_capacity (b : RawDynamicSizeArray α) (index : Nat) (v : α) :
    (b.write index v).capacity = b.capacity := rfl

@[simp]
theorem write_allocSize (b : RawDynamicSizeArray α) (index : Nat) (v : α) :
    (b.write index v).allocSize = b.allocSize := rfl

@[simp]
theorem shiftRight_slots (b : RawDynamicSizeArray α) (index len : Nat) :
    (b.shiftRight index len).slots =
      fun j => if index < j ∧ j ≤ len then b.slots (j - 1) else b.slots j := rfl

@[simp]
theorem shiftRight_capacity (b : RawDynamicSizeArray α) (index len : Nat) :
    (b.shiftRight index len).capacity = b.capacity := rfl

@[simp]
theorem shiftLeft_slots (b : RawDynamicSizeArray α) (index len : Nat) :
    (b.shiftLeft index len).slots =
      fun j => if index ≤ j ∧ j < len then b.slots (j + 1) else b.slots j := rfl

@[simp]
theorem shiftLeft_capacity (b : RawDynamicSizeArray α) (index len : Nat) :
    (b.shiftLeft index len).capacity = b.capacity := rfl

end RawDynamicSizeArray

/-! Helper lemmas about `deref` and the sequence operations. -/

theorem range_map_congr {β : Type _} (f g : Nat → β) (n : Nat)
    (h : ∀ i, i < n → f i = g i) :
    (List.range n).map f = (List.range n).map g := by
  apply List.map_congr_left
  intro i hi
  exact h i (List.mem_range.mp hi)

namespace DynamicSizeArray

@[simp]
theorem deref_length (s : DynamicSizeArray α) : s.deref.length = s.length := by
  simp [deref]

theorem deref_congr (s t : DynamicSizeArray α) (hl : s.length = t.length)
    (h : ∀ i, i < s.length → s.buffer.slots i = t.buffer.slots i) :
    s.deref = t.deref := by
  unfold deref
  rw [← hl]
  exact range_map_congr _ _ _ h

theorem deref_eq_append (s : DynamicSizeArray α) (n : Nat) (h : s.length = n + 1) :
    s.deref = (List.range n).map s.buffer.slots ++ [s.buffer.slots n] := by
  unfold deref
  rw [h, List.range_succ, List.map_append, List.map_singleton]

theorem push_checked_not_full (c : AllocCtx) (s : DynamicSizeArray α) (v : α)
    (h : s.is_full = false) :
    s.push_checked c v =
      ({ buffer := s.buffer.write s.length v, length := s.length + 1 }, none) := by
  simp [push_checked, h]

theorem push_checked_ok (c : AllocCtx) (s : DynamicSizeArray α) (v : α)
    (h : (s.push_checked c v).2 = none) :
    (s.push_checked c v).1.length = s.length + 1 ∧
    (s.push_checked c v).1.buffer.slots =
      fun j => if j = s.length then some v else s.buffer.slots j := by
  by_cases hf : s.is_full
  · rcases hg : s.buffer.grow c with ⟨b, e⟩
    have hs : b.slots = s.buffer.slots := by
      have h0 := RawDynamicSizeArray.grow_slots c s.buffer
      rw [hg] at h0
      exact h0
    cases e
    · simp [push_checked, hf, hg, hs]
    · simp [push_checked, hf, hg] at h
  · simp only [Bool.not_eq_true] at hf
    simp [push_checked_not_full c s v hf]

theorem push_checked_err (c : AllocCtx) (s : DynamicSizeArray α) (v : α)
    (e : GrowError) (h : (s.push_checked c v).2 = some e) :
    (s.push_checked c v).1 = { s with buffer := (s.buffer.grow c).1 } ∧
    s.is_full = true ∧ (s.buffer.grow c).2 = some e := by
  by_cases hf : s.is_full
  · rcases hg : s.buffer.grow c with ⟨b, e'⟩
    cases e'
    · simp [push_checked, hf, hg] at h
    · simp [push_checked, hf, hg] at h ⊢
      exact h
  · simp only [Bool.not_eq_true] at hf
    rw [push_checked_not_full c s v hf] at h
    simp at h

theorem push_checked_ok_deref (c : AllocCtx) (s : DynamicSizeArray α) (v : α)
    (h : (s.push_checked c v).2 = none) :
    (s.push_checked c v).1.deref = s.deref ++ [some v] := by
  obtain ⟨hl, hs⟩ := push_checked_ok c s v h
  rw [deref_eq_append _ s.length hl, hs]
  congr 1
  · exact range_map_congr _ _ _ (fun i hi => by simp [Nat.ne_of_lt hi])
  · simp

theorem push_checked_err_deref (c : AllocCtx) (s : DynamicSizeArray α) (v : α)
    (e : GrowError) (h : (s.push_checked c v).2 = some e) :
    (s.push_checked c v).1.length = s.length ∧
    (s.push_checked c v).1.deref = s.deref := by
  obtain ⟨hst, -, -⟩ := push_checked_err c s v e h
  rw [hst]
  refine ⟨rfl, deref_congr _ _ rfl fun i _ => ?_⟩
  show ((s.buffer.grow c).1).slots i = s.buffer.slots i
  rw [RawDynamicSizeArray.grow_slots]

theorem pop_of_length (s : DynamicSizeArray α) (n : Nat) (h : s.length = n + 1) :
    s.pop = ({ s with length := n }, s.buffer.slots n) := by
  simp [pop, is_empty, h]

theorem pop_of_empty (s : DynamicSizeArray α) (h : s.length = 0) :
    s.pop = (s, none) := by
  simp [pop, is_empty, h]

theorem insert_checked_oob (c : AllocCtx) (s : DynamicSizeArray α) (index : Nat)
    (v : α) (h : s.length < index) :
    s.insert_checked c index v = (s, some InsertError.IndexOutOfBounds) := by
  simp [insert_checked, h]

theorem insert_checked_ok (c : AllocCtx) (s : DynamicSizeArray α) (index : Nat)
    (v : α) (h : (s.insert_checked c index v).2 = none) :
    index ≤ s.length ∧
    (s.insert_checked c index v).1.length = s.length + 1 ∧
    (s.insert_checked c index v).1.buffer.slots = fun j =>
      if j = index then some v
      else if index < j ∧ j ≤ s.length then s.buffer.slots (j - 1)
      else s.buffer.slots j := by
  by_cases hi : s.length < index
  · rw [insert_checked_oob c s index v hi] at h
    simp at h
  · have hle : index ≤ s.length := Nat.le_of_not_lt hi
    refine ⟨hle, ?_⟩
    by_cases hf : s.is_full
    · rcases hg : s.buffer.grow c with ⟨b, e⟩
      have hs : b.slots = s.buffer.slots := by
        have h0 := RawDynamicSizeArray.grow_slots c s.buffer
        rw [hg] at h0
        exact h0
      cases e
      · simp [insert_checked, hi, hf, hg, hs, RawDynamicSizeArray.shiftRight]
      · simp [insert_checked, hi, hf, hg] at h
    · simp [insert_checked, hi, hf, RawDynamicSizeArray.shiftRight]

theorem insert_checked_err (c : AllocCtx) (s : DynamicSizeArray α) (index : Nat)
    (v : α) (e : InsertError) (h : (s.insert_checked c index v).2 = some e) :
    (e = InsertError.IndexOutOfBounds ∧ s.length < index ∧
       (s.insert_checked c index v).1 = s) ∨
    (∃ ge, e = InsertError.Grow ge ∧ index ≤ s.length ∧ s.is_full = true ∧
       (s.buffer.grow c).2 = some ge ∧
       (s.insert_checked c index v).1 = { s with buffer := (s.buffer.grow c).1 }) := by
  by_cases hi : s.length < index
  · rw [insert_checked_oob c s index v hi] at h ⊢
    simp at h
    simp [h, hi]
  · have hle : index ≤ s.length := Nat.le_of_not_lt hi
    by_cases hf : s.is_full
    · rcases hg : s.buffer.grow c with ⟨b, e'⟩
      cases e'
      · simp [insert_checked, hi, hf, hg] at h
      · simp [insert_checked, hi, hf, hg] at h ⊢
        simp [h, hle]
    · simp [insert_checked, hi, hf] at h

theorem remove_checked_oob (s : DynamicSizeArray α) (index : Nat)
    (h : s.length ≤ index) :
    s.remove_checked index = (s, none) := by
  simp [remove_checked, h]

theorem remove_checked_in (s : DynamicSizeArray α) (index : Nat)
    (h : index < s.length) :
    s.remove_checked index =
      ({ buffer := s.buffer.shiftLeft index (s.length - 1), length := s.length - 1 },
       s.buffer.slots index) := by
  simp [remove_checked, Nat.not_le.mpr h]

theorem push_checked_capacity (c : AllocCtx) (s : DynamicSizeArray α) (v : α) :
    s.buffer.capacity ≤ (s.push_checked c v).1.buffer.capacity := by
  by_cases hf : s.is_full
  · rcases hg : s.buffer.grow c with ⟨b, e⟩
    have hb : s.buffer.capacity ≤ b.capacity := by
      have h0 := RawDynamicSizeArray.grow_capacity_mono c s.buffer
      rw [hg] at h0
      exact h0
    cases e <;> simp [push_checked, hf, hg] <;> exact hb
  · simp [push_checked, hf]

theorem push_checked_full_ok (c : AllocCtx) (s : DynamicSizeArray α) (v : α)
    (hf : s.is_full = true) (h : (s.push_checked c v).2 = none) :
    (s.buffer.grow c).2 = none ∧
    (s.push_checked c v).1.buffer.capacity = (s.buffer.grow c).1.capacity := by
  rcases hg : s.buffer.grow c with ⟨b, e⟩
  cases e
  · simp [push_checked, hf, hg]
  · simp [push_checked, hf, hg] at h

theorem pop_buffer (s : DynamicSizeArray α) : s.pop.1.buffer = s.buffer := by
  unfold pop
  split <;> rfl

theorem pop_length_le (s : DynamicSizeArray α) : s.pop.1.length ≤ s.length := by
  unfold pop
  split
  · exact Nat.le_refl _
  · exact Nat.sub_le _ _

theorem insert_checked_capacity (c : AllocCtx) (s : DynamicSizeArray α)
    (index : Nat) (v : α) :
    s.buffer.capacity ≤ (s.insert_checked c index v).1.buffer.capacity := by
  by_cases hi : s.length < index
  · rw [insert_checked_oob c s index v hi]
  · by_cases hf : s.is_full
    · rcases hg : s.buffer.grow c with ⟨b, e⟩
      have hb : s.buffer.capacity ≤ b.capacity := by
        have h0 := RawDynamicSizeArray.grow_capacity_mono c s.buffer
        rw [hg] at h0
        exact h0
      cases e <;> simp [insert_checked, hi, hf, hg] <;> exact hb
    · simp [insert_checked, hi, hf]

theorem insert_checked_full_ok (c : AllocCtx) (s : DynamicSizeArray α)
    (index : Nat) (v : α) (hi : ¬s.length < index) (hf : s.is_full = true)
    (h : (s.insert_checked c index v).2 = none) :
    (s.buffer.grow c).2 = none ∧
    (s.insert_checked c index v).1.buffer.capacity = (s.buffer.grow c).1.capacity := by
  rcases hg : s.buffer.grow c with ⟨b, e⟩
  cases e
  · simp [insert_checked, hi, hf, hg]
  · simp [insert_checked, hi, hf, hg] at h

theorem insert_checked_not_full_capacity (c : AllocCtx) (s : DynamicSizeArray α)
    (index : Nat) (v : α) (hf : s.is_full = false) :
    (s.insert_checked c index v).1.buffer.capacity = s.buffer.capacity := by
  by_cases hi : s.length < index
  · rw [insert_checked_oob c s index v hi]
  · simp [insert_checked, hi, hf]

theorem remove_checked_capacity (s : DynamicSizeArray α) (index : Nat) :
    (s.remove_checked index).1.buffer.capacity = s.buffer.capacity := by
  unfold remove_checked
  split <;> simp

theorem remove_checked_length_le (s : DynamicSizeArray α) (index : Nat) :
    (s.remove_checked index).1.length ≤ s.length := by
  unfold remove_checked
  split
  · exact Nat.le_refl _
  · exact Nat.sub_le _ _

/-- Capacity never decreases across any single operation, successful or not. -/
theorem applyOp_capacity_mono (c : AllocCtx) (s : DynamicSizeArray α) (op : Op α) :
    s.buffer.capacity ≤ (s.applyOp c op).buffer.capacity := by
  cases op with
  | push v => exact push_checked_capacity c s v
  | pop => rw [show (s.applyOp c Op.pop).buffer = s.pop.1.buffer from rfl, pop_buffer]
  | insert i v => exact insert_checked_capacity c s i v
  | remove i =>
      rw [show (s.applyOp c (Op.remove i)).buffer.capacity
            = (s.remove_checked i).1.buffer.capacity from rfl,
          remove_checked_capacity]

/-- The length/capacity bound is preserved by every single operation. -/
theorem applyOp_length_le (c : AllocCtx) (s : DynamicSizeArray α) (op : Op α)
    (h : s.length ≤ s.buffer.capacity) :
    (s.applyOp c op).length ≤ (s.applyOp c op).buffer.capacity := by
  cases op with
  | push v =>
      show (s.push_checked c v).1.length ≤ (s.push_checked c v).1.buffer.capacity
      cases he : (s.push_checked c v).2 with
      | none =>
          obtain ⟨hl, -⟩ := push_checked_ok c s v he
          rw [hl]
          by_cases hf : s.is_full
          · obtain ⟨hgok, hcap⟩ := push_checked_full_ok c s v hf he
            rw [hcap, RawDynamicSizeArray.grow_capacity_of_ok c s.buffer hgok]
            simp [is_full] at hf
            split <;> omega
          · simp only [Bool.not_eq_true] at hf
            rw [push_checked_not_full c s v hf]
            simp [is_full] at hf
            simp
            omega
      | some e =>
          obtain ⟨hst, -, -⟩ := push_checked_err c s v e he
          rw [hst]
          exact Nat.le_trans h (RawDynamicSizeArray.grow_capacity_mono c s.buffer)
  | pop =>
      show s.pop.1.length ≤ s.pop.1.buffer.capacity
      rw [pop_buffer]
      exact Nat.le_trans (pop_length_le s) h
  | insert index v =>
      show (s.insert_checked c index v).1.length
        ≤ (s.insert_checked c index v).1.buffer.capacity
      cases he : (s.insert_checked c index v).2 with
      | none =>
          obtain ⟨hle, hl, -⟩ := insert_checked_ok c s index v he
          rw [hl]
          by_cases hf : s.is_full
          · obtain ⟨hgok, hcap⟩ :=
              insert_checked_full_ok c s index v (Nat.not_lt.mpr hle) hf he
            rw [hcap, RawDynamicSizeArray.grow_capacity_of_ok c s.buffer hgok]
            simp [is_full] at hf
            split <;> omega
          · simp only [Bool.not_eq_true] at hf
            rw [insert_checked_not_full_capacity c s index v hf]
            simp [is_full] at hf
            omega
      | some e =>
          rcases insert_checked_err c s index v e he with
            ⟨-, -, hst⟩ | ⟨ge, -, -, -, -, hst⟩
          · rw [hst]
            exact h
          · rw [hst]
            exact Nat.le_trans h (RawDynamicSizeArray.grow_capacity_mono c s.buffer)
  | remove index =>
      show (s.remove_checked index).1.length ≤ (s.remove_checked index).1.buffer.capacity
      rw [remove_checked_capacity]
      exact Nat.le_trans (remove_checked_length_le s index) h

/-- Slots below the length always hold initialized elements. -/
def WF (s : DynamicSizeArray α) : Prop :=
  ∀ i, i < s.length → (s.buffer.slots i).isSome = true

theorem WF_new (α : Type) (elemSize : Nat) : WF (new α elemSize) := by
  intro i hi
  simp [new] at hi

theorem WF_applyOp (c : AllocCtx) (s : DynamicSizeArray α) (op : Op α)
    (h : WF s) : WF (s.applyOp c op) := by
  cases op with
  | push v =>
      show WF (s.push_checked c v).1
      cases he : (s.push_checked c v).2 with
      | none =>
          obtain ⟨hl, hs⟩ := push_checked_ok c s v he
          intro i hi
          rw [hl] at hi
          rw [hs]
          by_cases hie : i = s.length
          · simp [hie]
          · simp only [hie, if_false]
            exact h i (by omega)
      | some e =>
          obtain ⟨hst, -, -⟩ := push_checked_err c s v e he
          intro i hi
          rw [hst] at hi ⊢
          simp only at hi ⊢
          rw [RawDynamicSizeArray.grow_slots]
          exact h i hi
  | pop =>
      show WF s.pop.1
      rcases hn : s.length with - | n
      · rw [pop_of_empty s hn]
        exact h
      · rw [pop_of_length s n hn]
        intro i hi
        simp only at hi ⊢
        exact h i (by omega)
  | insert index v =>
      show WF (s.insert_checked c index v).1
      cases he : (s.insert_checked c index v).2 with
      | none =>
          obtain ⟨hle, hl, hs⟩ := insert_checked_ok c s index v he
          intro i hi
          rw [hl] at hi
          rw [hs]
          by_cases h1 : i = index
          · simp [h1]
          · simp only [h1, if_false]
            by_cases h2 : index < i ∧ i ≤ s.length
            · rw [if_pos h2]
              exact h (i - 1) (by omega)
            · rw [if_neg h2]
              exact h i (by omega)
      | some e =>
          rcases insert_checked_err c s index v e he with
            ⟨-, -, hst⟩ | ⟨ge, -, -, -, -, hst⟩
          · rw [hst]
            exact h
          · intro i hi
            rw [hst] at hi ⊢
            simp only at hi ⊢
            rw [RawDynamicSizeArray.grow_slots]
            exact h i hi
  | remove index =>
      show WF (s.remove_checked index).1
      by_cases hi : index < s.length
      · rw [remove_checked_in s index hi]
        intro j hj
        simp only at hj ⊢
        simp only [RawDynamicSizeArray.shiftLeft_slots]
        by_cases h2 : index ≤ j ∧ j < s.length - 1
        · rw [if_pos h2]
          exact h (j + 1) (by omega)
        · rw [if_neg h2]
          exact h j (by omega)
      · rw [remove_checked_oob s index (Nat.le_of_not_lt hi)]
        exact h

theorem Reachable_WF {elemSize align : Nat} {s : DynamicSizeArray α}
    (h : Reachable elemSize align s) : WF s := by
  induction h with
  | new => exact WF_new α elemSize
  | step allocOk op _ ih => exact WF_applyOp _ _ _ ih

theorem Reachable_length_le {elemSize align : Nat} {s : DynamicSizeArray α}
    (h : Reachable elemSize align s) : s.length ≤ s.buffer.capacity := by
  induction h with
  | new => exact Nat.zero_le _
  | step allocOk op _ ih => exact applyOp_length_le _ _ _ ih

end DynamicSizeArray

/-- The slot map produced by a right-shift at `index` followed by a write at
`index`, read over the range `[0, n+1)`, is the splice of the original range
`[0, n)` with the new value at position `index`. -/
theorem range_map_splice {γ : Type _} (f : Nat → γ) (x : γ) (n index : Nat)
    (h : index ≤ n) :
    (List.range (n + 1)).map (fun j =>
        if j = index then x
        else if index < j ∧ j ≤ n then f (j - 1) else f j) =
      ((List.range n).map f).take index ++ x :: ((List.range n).map f).drop index := by
  have hlen : (((List.range n).map f).take index).length = index := by
    simp
    omega
  apply List.ext_getElem?
  intro j
  rw [List.getElem?_append, hlen]
  by_cases hj1 : j < index
  · rw [if_pos hj1, List.getElem?_take, if_pos hj1, List.getElem?_map, List.getElem?_map,
      List.getElem?_range (by omega), List.getElem?_range (by omega)]
    simp only [Option.map_some']
    rw [if_neg (by omega), if_neg (by omega)]
  · rw [if_neg hj1, List.getElem?_cons]
    by_cases hj2 : j = index
    · rw [if_pos (by omega), List.getElem?_map, List.getElem?_range (by omega)]
      simp only [Option.map_some']
      rw [if_pos hj2]
    · rw [if_neg (by omega), List.getElem?_drop, List.getElem?_map, List.getElem?_map]
      have h3 : index + (j - index - 1) = j - 1 := by omega
      rw [h3]
      by_cases hj3 : j < n + 1
      · rw [List.getElem?_range (by omega), List.getElem?_range (by omega)]
        simp only [Option.map_some']
        rw [if_neg hj2, if_pos ⟨by omega, by omega⟩]
      · rw [List.getElem?_eq_none (by simp; omega), List.getElem?_eq_none (by simp; omega)]
        simp

namespace DynamicSizeArray

theorem pushAll_ok (c : AllocCtx) (vs : List α) :
    ∀ s : DynamicSizeArray α, (s.pushAll c vs).2 = true →
      (s.pushAll c vs).1.deref = s.deref ++ vs.map some ∧
      (s.pushAll c vs).1.length = s.length + vs.length := by
  induction vs with
  | nil =>
      intro s _
      simp [pushAll]
  | cons v vs ih =>
      intro s h
      rcases hp : s.push_checked c v with ⟨s1, e⟩
      cases e with
      | some e0 =>
          rw [show s.pushAll c (v :: vs) = (s1, false) by simp [pushAll, hp]] at h
          simp at h
      | none =>
          have hstep : s.pushAll c (v :: vs) = s1.pushAll c vs := by
            simp [pushAll, hp]
          rw [hstep] at h ⊢
          obtain ⟨hd, hl⟩ := ih s1 h
          have hp2 : (s.push_checked c v).2 = none := by rw [hp]
          have hd1 : s1.deref = s.deref ++ [some v] := by
            have h0 := push_checked_ok_deref c s v hp2
            rw [hp] at h0
            exact h0
          have hl1 : s1.length = s.length + 1 := by
            have h0 := (push_checked_ok c s v hp2).1
            rw [hp] at h0
            exact h0
          refine ⟨?_, ?_⟩
          · rw [hd, hd1]
            simp
          · rw [hl, hl1]
            simp [List.length_cons]
            omega

theorem popN_spec (n : Nat) :
    ∀ s : DynamicSizeArray α, s.length = n →
      (s.popN n).2 = s.deref.reverse ∧ (s.popN n).1.length = 0 := by
  induction n with
  | zero =>
      intro s h
      simp [popN, deref, h]
  | succ n ih =>
      intro s h
      have hp := pop_of_length s n h
      have hstep : s.popN (n + 1) =
          ((({ s with length := n } : DynamicSizeArray α).popN n).1,
           s.buffer.slots n :: (({ s with length := n } : DynamicSizeArray α).popN n).2) := by
        simp [popN, hp]
      obtain ⟨ih2, ih1⟩ := ih ({ s with length := n }) rfl
      rw [hstep]
      refine ⟨?_, ih1⟩
      rw [ih2, deref_eq_append s n h]
      have hd : ({ s with length := n } : DynamicSizeArray α).deref
          = (List.range n).map s.buffer.slots := rfl
      rw [hd, List.reverse_append]
      simp

end DynamicSizeArray

open DynamicSizeArray in
/-- C1: the claim states that whenever `grow` fails, the buffer is left with a
capacity field that never describes more memory than is actually allocated.
The code violates this: it updates `capacity` before attempting the
allocation and does not restore it on failure.  Growing a consistent buffer
of 2^62 one-byte elements fails with a `Layout` error yet leaves
`capacity = 2^63` while the allocation still holds 2^62 slots; an allocator
failure on a capacity-1 buffer likewise leaves `capacity = 2` over a 1-slot
allocation, and a failed first allocation leaves `capacity = 1` with no
allocation at all. -/
theorem C1_grow_failure_capacity_overstates_allocation :
    (let b : RawDynamicSizeArray Unit :=
       { slots := fun _ => none, capacity := 2 ^ 62, allocSize := 2 ^ 62 }
     let c : AllocCtx := { elemSize := 1, align := 1, allocOk := fun _ => true }
     (b.grow c).2 = some GrowError.Layout ∧
     (b.grow c).1.capacity = 2 ^ 63 ∧
     (b.grow c).1.allocSize = 2 ^ 62 ∧
     (b.grow c).1.allocSize < (b.grow c).1.capacity) ∧
    (let b : RawDynamicSizeArray Unit :=
       { slots := fun _ => none, capacity := 1, allocSize := 1 }
     let c : AllocCtx := { elemSize := 1, align := 1, allocOk := fun _ => false }
     (b.grow c).2 = some GrowError.AllocationFail ∧
     (b.grow c).1.capacity = 2 ∧
     (b.grow c).1.allocSize = 1) ∧
    (let c : AllocCtx := { elemSize := 1, align := 1, allocOk := fun _ => false }
     ((RawDynamicSizeArray.new Unit 1).grow c).2 = some GrowError.AllocationFail ∧
     ((RawDynamicSizeArray.new Unit 1).grow c).1.capacity = 1 ∧
     ((RawDynamicSizeArray.new Unit 1).grow c).1.allocSize = 0) := by
  decide

/-- C2: for every state reachable from `new()` by any finite sequence of
push/pop/insert/remove calls (successful or failed, under an arbitrary
allocator), `length ≤ capacity`; and across any single operation on any state
the capacity only increases, never decreases. -/
theorem C2_length_le_capacity_and_capacity_monotone (α : Type)
    (elemSize align : Nat) :
    (∀ s : DynamicSizeArray α, DynamicSizeArray.Reachable elemSize align s →
        s.length ≤ s.buffer.capacity) ∧
    (∀ (c : AllocCtx) (s : DynamicSizeArray α) (op : DynamicSizeArray.Op α),
        s.buffer.capacity ≤ (s.applyOp c op).buffer.capacity) :=
  ⟨fun _ h => DynamicSizeArray.Reachable_length_le h,
   fun c s op => DynamicSizeArray.applyOp_capacity_mono c s op⟩

open DynamicSizeArray in
/-- Witness for C2 at a concrete reachable state (one successful push from
`new`) and a concrete operation. -/
theorem C2_length_le_capacity_witness :
    DynamicSizeArray.Reachable 1 1
      ((DynamicSizeArray.new Nat 1).applyOp ⟨1, 1, fun _ => true⟩ (Op.push 5)) ∧
    ((DynamicSizeArray.new Nat 1).applyOp ⟨1, 1, fun _ => true⟩ (Op.push 5)).length
      ≤ ((DynamicSizeArray.new Nat 1).applyOp ⟨1, 1, fun _ => true⟩
          (Op.push 5)).buffer.capacity := by
  have hr : DynamicSizeArray.Reachable 1 1
      ((DynamicSizeArray.new Nat 1).applyOp ⟨1, 1, fun _ => true⟩ (Op.push 5)) :=
    Reachable.step (fun _ => true) (Op.push 5) Reachable.new
  exact ⟨hr, (C2_length_le_capacity_and_capacity_monotone Nat 1 1).1 _ hr⟩

/-- C4 counterexample: the first successful grow of a zero-capacity buffer
sets the capacity to 1, not to a floor of 8 — in the compiled lib.rs `grow`
and in the raw.rs variant alike (`larger_capacity`'s floor of 8 only applies
from the second growth on). -/
theorem C4_first_grow_counterexample :
    (let c : AllocCtx := { elemSize := 1, align := 1, allocOk := fun _ => true }
     ((RawDynamicSizeArray.new Unit 1).grow c).2 = none ∧
     ((RawDynamicSizeArray.new Unit 1).grow c).1.capacity = 1 ∧
     ((RawDynamicSizeArray.new Unit 1).growRawVariant c).2 = none ∧
     ((RawDynamicSizeArray.new Unit 1).growRawVariant c).1.capacity = 1) ∧
    (1 : Nat) ≠ 8 := by
  decide

open RawDynamicSizeArray in
/-- C4 (amended): on a buffer with capacity 0, the first successful grow sets
the capacity to 1 (not 8); every subsequent successful grow doubles the
capacity; and every successful grow strictly increases the capacity while
preserving all existing slot contents up to the old capacity. -/
theorem C4_grow_policy (c : AllocCtx) (b : RawDynamicSizeArray α)
    (h : (b.grow c).2 = none) :
    (b.capacity = 0 → (b.grow c).1.capacity = 1) ∧
    (b.capacity ≠ 0 → (b.grow c).1.capacity = b.capacity * 2) ∧
    b.capacity < (b.grow c).1.capacity ∧
    ∀ i, i < b.capacity → (b.grow c).1.slots i = b.slots i := by
  have hc := grow_capacity_of_ok c b h
  refine ⟨fun h0 => ?_, fun h0 => ?_, grow_capacity_lt_of_ok c b h,
    fun i _ => by rw [grow_slots]⟩
  · rw [hc, if_pos h0]
  · rw [hc, if_neg h0]

/-- Witness for C4's amended theorem: a concrete successful grow from
capacity 0. -/
theorem C4_grow_policy_witness :
    ((RawDynamicSizeArray.new Unit 1).grow
        { elemSize := 1, align := 1, allocOk := fun _ => true }).2 = none ∧
    ((RawDynamicSizeArray.new Unit 1).grow
        { elemSize := 1, align := 1, allocOk := fun _ => true }).1.capacity = 1 :=
  ⟨by decide, (C4_grow_policy _ _ (by decide)).1 (by decide)⟩

open DynamicSizeArray in
/-- C6: on a length-`n` array, `insert_checked(n+1, v)` reports
`IndexOutOfBounds` and `remove_checked(n)` reports `None`, each leaving the
array state (length, contents, capacity) completely unchanged; and the
out-of-bounds report is distinct from every allocation failure report. -/
theorem C6_bounds_rejection (c : AllocCtx) (s : DynamicSizeArray α) (v : α) :
    s.insert_checked c (s.length + 1) v = (s, some InsertError.IndexOutOfBounds) ∧
    s.remove_checked s.length = (s, none) ∧
    (∀ e : GrowError, InsertError.IndexOutOfBounds ≠ InsertError.Grow e) :=
  ⟨insert_checked_oob c s (s.length + 1) v (Nat.lt_succ_self _),
   remove_checked_oob s s.length (Nat.le_refl _),
   fun e h => by cases h⟩

/-- Witness for C6 at a concrete array: out-of-bounds insert on the empty
array is rejected with the state returned untouched. -/
theorem C6_bounds_rejection_witness :
    (DynamicSizeArray.new Nat 1).insert_checked ⟨1, 1, fun _ => true⟩
        ((DynamicSizeArray.new Nat 1).length + 1) 4
      = (DynamicSizeArray.new Nat 1, some InsertError.IndexOutOfBounds) :=
  (C6_bounds_rejection ⟨1, 1, fun _ => true⟩ (DynamicSizeArray.new Nat 1) 4).1

open DynamicSizeArray in
/-- C10: for a zero-sized element type, `new()` starts with capacity
`usize::MAX` (not 0), and on any state whose capacity is `usize::MAX` and
whose length is below `usize::MAX`, the array reports not-full and
`push_checked` succeeds with no growth and no allocation (capacity and actual
allocation are untouched regardless of the allocator). -/
theorem C10_zst_no_grow (α : Type) (align : Nat) (allocOk : Nat → Bool)
    (s : DynamicSizeArray α) (v : α)
    (hcap : s.buffer.capacity = USIZE_MAX) (hlen : s.length < USIZE_MAX) :
    (DynamicSizeArray.new α 0).buffer.capacity = USIZE_MAX ∧
    USIZE_MAX ≠ 0 ∧
    s.is_full = false ∧
    (s.push_checked ⟨0, align, allocOk⟩ v).2 = none ∧
    (s.push_checked ⟨0, align, allocOk⟩ v).1.buffer.capacity = s.buffer.capacity ∧
    (s.push_checked ⟨0, align, allocOk⟩ v).1.buffer.allocSize = s.buffer.allocSize ∧
    (s.push_checked ⟨0, align, allocOk⟩ v).1.length = s.length + 1 := by
  have hf : s.is_full = false := by
    simp only [is_full, hcap, beq_eq_false_iff_ne, ne_eq]
    omega
  rw [push_checked_not_full _ s v hf]
  refine ⟨?_, by decide, hf, rfl, rfl, rfl, rfl⟩
  simp [DynamicSizeArray.new, RawDynamicSizeArray.new, RawDynamicSizeArray.NEW_CAPACITY]

/-- Witness for C10: the empty zero-sized-type array, a hostile allocator. -/
theorem C10_zst_no_grow_witness :
    ((DynamicSizeArray.new Unit 0).buffer.capacity = USIZE_MAX ∧
     (DynamicSizeArray.new Unit 0).length < USIZE_MAX) ∧
    ((DynamicSizeArray.new Unit 0).push_checked ⟨0, 1, fun _ => false⟩ ()).2 = none :=
  ⟨⟨by decide, by decide⟩,
   (C10_zst_no_grow Unit 1 (fun _ => false) (DynamicSizeArray.new Unit 0) ()
     (by decide) (by decide)).2.2.2.1⟩

open DynamicSizeArray in
/-- C3: pushing `v1, …, vn` onto the empty array (every push succeeding) and
then popping `n` times yields `vn, …, v1` exactly, and one further pop
reports the absence `None`. -/
theorem C3_lifo_round_trip (c : AllocCtx) (vs : List α)
    (h : ((DynamicSizeArray.new α c.elemSize).pushAll c vs).2 = true) :
    ((((DynamicSizeArray.new α c.elemSize).pushAll c vs).1).popN vs.length).2
        = vs.reverse.map some ∧
    (((((DynamicSizeArray.new α c.elemSize).pushAll c vs).1).popN vs.length).1).pop.2
        = none := by
  obtain ⟨hd, hl⟩ := pushAll_ok c vs (DynamicSizeArray.new α c.elemSize) h
  have hnew : (DynamicSizeArray.new α c.elemSize).deref = [] := by
    simp [deref, DynamicSizeArray.new]
  rw [hnew, List.nil_append] at hd
  have hlen : ((DynamicSizeArray.new α c.elemSize).pushAll c vs).1.length
      = vs.length := by
    rw [hl]
    simp [DynamicSizeArray.new]
  obtain ⟨h1, h2⟩ := popN_spec vs.length _ hlen
  refine ⟨?_, ?_⟩
  · rw [h1, hd, List.map_reverse]
  · rw [pop_of_empty _ h2]

/-- Witness for C3: pushing 10, 20, 30 then popping three times. -/
theorem C3_lifo_round_trip_witness :
    ((DynamicSizeArray.new Nat 1).pushAll ⟨1, 1, fun _ => true⟩ [10, 20, 30]).2
      = true ∧
    ((((DynamicSizeArray.new Nat 1).pushAll
        ⟨1, 1, fun _ => true⟩ [10, 20, 30]).1).popN 3).2
      = [some 30, some 20, some 10] :=
  ⟨by decide, by
    have h := C3_lifo_round_trip ⟨1, 1, fun _ => true⟩ [10, 20, 30] (by decide)
    simpa using h.1⟩

open DynamicSizeArray in
/-- C5: a successful `insert_checked(i, v)` on the sequence `[a0, …, a(n-1)]`
produces exactly `[a0, …, a(i-1), v, ai, …, a(n-1)]` (`i = n` meaning append),
and every index strictly greater than the length is reported as
`IndexOutOfBounds`, leaving the state unchanged, rather than a panic. -/
theorem C5_insert_splice (c : AllocCtx) (s : DynamicSizeArray α) (index : Nat)
    (v : α) :
    (s.length < index →
        s.insert_checked c index v = (s, some InsertError.IndexOutOfBounds)) ∧
    ((s.insert_checked c index v).2 = none →
        (s.insert_checked c index v).1.deref
          = s.deref.take index ++ some v :: s.deref.drop index ∧
        (s.insert_checked c index v).1.length = s.length + 1) := by
  refine ⟨insert_checked_oob c s index v, fun h => ?_⟩
  obtain ⟨hle, hl, hs⟩ := insert_checked_ok c s index v h
  refine ⟨?_, hl⟩
  have hsp := range_map_splice s.buffer.slots (some v) s.length index hle
  show (List.range (s.insert_checked c index v).1.length).map
      (s.insert_checked c index v).1.buffer.slots
    = s.deref.take index ++ some v :: s.deref.drop index
  rw [hl, hs, hsp]
  rfl

/-- Witness for C5: inserting at index 0 of the empty array. -/
theorem C5_insert_splice_witness :
    ((DynamicSizeArray.new Nat 1).insert_checked ⟨1, 1, fun _ => true⟩ 0 9).2
      = none ∧
    ((DynamicSizeArray.new Nat 1).insert_checked ⟨1, 1, fun _ => true⟩ 0 9).1.deref
      = [some 9] :=
  ⟨by decide, by
    have h := (C5_insert_splice ⟨1, 1, fun _ => true⟩
        (DynamicSizeArray.new Nat 1) 0 9).2 (by decide)
    simpa using h.1⟩

open DynamicSizeArray in
/-- C7: immediately after a successful `insert_checked(i, v)` (no intervening
mutation), `remove_checked(i)` returns `v` and restores exactly the sequence
of elements that existed before the insert. -/
theorem C7_insert_remove_inverse (c : AllocCtx) (s : DynamicSizeArray α)
    (index : Nat) (v : α) (h : (s.insert_checked c index v).2 = none) :
    ((s.insert_checked c index v).1.remove_checked index).2 = some v ∧
    ((s.insert_checked c index v).1.remove_checked index).1.deref = s.deref := by
  obtain ⟨hle, hl, hs⟩ := insert_checked_ok c s index v h
  have hidx : index < (s.insert_checked c index v).1.length := by
    rw [hl]
    omega
  have hrm := remove_checked_in _ index hidx
  constructor
  · rw [hrm]
    show (s.insert_checked c index v).1.buffer.slots index = some v
    simp [hs]
  · rw [hrm]
    apply deref_congr
    · show (s.insert_checked c index v).1.length - 1 = s.length
      rw [hl]
      omega
    · intro i hi
      have hi' : i < s.length := by
        simp only at hi
        omega
      show ((s.insert_checked c index v).1.buffer.shiftLeft index
          ((s.insert_checked c index v).1.length - 1)).slots i = s.buffer.slots i
      rw [RawDynamicSizeArray.shiftLeft_slots]
      simp only [hs, hl]
      by_cases h2 : index ≤ i ∧ i < s.length + 1 - 1
      · rw [if_pos h2, if_neg (by omega), if_pos ⟨by omega, by omega⟩]
        congr 1
      · rw [if_neg h2, if_neg (by omega), if_neg (by omega)]

/-- Witness for C7: insert 5 at index 0 of the empty array, then remove it. -/
theorem C7_insert_remove_inverse_witness :
    ((DynamicSizeArray.new Nat 1).insert_checked ⟨1, 1, fun _ => true⟩ 0 5).2
      = none ∧
    (((DynamicSizeArray.new Nat 1).insert_checked
        ⟨1, 1, fun _ => true⟩ 0 5).1.remove_checked 0).2 = some 5 :=
  ⟨by decide,
   (C7_insert_remove_inverse ⟨1, 1, fun _ => true⟩
     (DynamicSizeArray.new Nat 1) 0 5 (by decide)).1⟩

open DynamicSizeArray in
/-- C8: `push_checked` appends after the last live element; when the array is
full it performs exactly one growth before writing (the outcome and the new
capacity are those of that single `grow` call); and it is never partially
applied: on success the length rises by one and the new view is the old view
with `v` appended, on failure length and live contents are unchanged and the
reported error is the growth failure. -/
theorem C8_push_atomicity (c : AllocCtx) (s : DynamicSizeArray α) (v : α) :
    ((s.push_checked c v).2 = none →
        (s.push_checked c v).1.deref = s.deref ++ [some v] ∧
        (s.push_checked c v).1.length = s.length + 1) ∧
    (∀ e, (s.push_checked c v).2 = some e →
        (s.push_checked c v).1.length = s.length ∧
        (s.push_checked c v).1.deref = s.deref ∧
        s.is_full = true ∧ (s.buffer.grow c).2 = some e) ∧
    (s.is_full = false →
        (s.push_checked c v).2 = none ∧
        (s.push_checked c v).1.buffer.capacity = s.buffer.capacity ∧
        (s.push_checked c v).1.buffer.allocSize = s.buffer.allocSize) ∧
    (s.is_full = true →
        (s.push_checked c v).2 = (s.buffer.grow c).2 ∧
        (s.push_checked c v).1.buffer.capacity = (s.buffer.grow c).1.capacity) := by
  refine ⟨fun h => ⟨push_checked_ok_deref c s v h, (push_checked_ok c s v h).1⟩,
    fun e h => ?_, fun hf => ?_, fun hf => ?_⟩
  · obtain ⟨h1, h2⟩ := push_checked_err_deref c s v e h
    obtain ⟨-, h3, h4⟩ := push_checked_err c s v e h
    exact ⟨h1, h2, h3, h4⟩
  · rw [push_checked_not_full c s v hf]
    exact ⟨rfl, rfl, rfl⟩
  · rcases hg : s.buffer.grow c with ⟨b, e⟩
    cases e <;> simp [push_checked, hf, hg]

/-- Witness for C8: a successful push of 7 onto the empty array. -/
theorem C8_push_atomicity_witness :
    ((DynamicSizeArray.new Nat 1).push_checked ⟨1, 1, fun _ => true⟩ 7).2 = none ∧
    ((DynamicSizeArray.new Nat 1).push_checked ⟨1, 1, fun _ => true⟩ 7).1.deref
      = (DynamicSizeArray.new Nat 1).deref ++ [some 7] :=
  ⟨by decide,
   ((C8_push_atomicity ⟨1, 1, fun _ => true⟩ (DynamicSizeArray.new Nat 1) 7).1
     (by decide)).1⟩

open DynamicSizeArray in
/-- C9: on every reachable state, the contiguous view (`Deref`) exposes
exactly the live elements at indices `[0, length)` in order: its length
equals the array's length, every exposed position holds the (initialized)
slot at the same index, and no position at or beyond `length` is exposed. -/
theorem C9_deref_exposes_live (elemSize align : Nat) (s : DynamicSizeArray α)
    (h : DynamicSizeArray.Reachable elemSize align s) :
    s.deref.length = s.length ∧
    (∀ i, i < s.length →
        s.deref[i]? = some (s.buffer.slots i) ∧ (s.buffer.slots i).isSome = true) ∧
    (∀ i, s.length ≤ i → s.deref[i]? = none) := by
  have hwf := Reachable_WF h
  refine ⟨deref_length s, fun i hi => ⟨?_, hwf i hi⟩, fun i hi => ?_⟩
  · show ((List.range s.length).map s.buffer.slots)[i]? = _
    rw [List.getElem?_map, List.getElem?_range hi]
    rfl
  · exact List.getElem?_eq_none (by simpa using hi)

open DynamicSizeArray in
/-- Witness for C9 at a concrete reachable state (one push from `new`). -/
theorem C9_deref_exposes_live_witness :
    DynamicSizeArray.Reachable 1 1
      ((DynamicSizeArray.new Nat 1).applyOp ⟨1, 1, fun _ => true⟩ (Op.push 7)) ∧
    ((DynamicSizeArray.new Nat 1).applyOp ⟨1, 1, fun _ => true⟩
        (Op.push 7)).deref.length
      = ((DynamicSizeArray.new Nat 1).applyOp ⟨1, 1, fun _ => true⟩
          (Op.push 7)).length := by
  have hr : DynamicSizeArray.Reachable 1 1
      ((DynamicSizeArray.new Nat 1).applyOp ⟨1, 1, fun _ => true⟩ (Op.push 7)) :=
    Reachable.step (fun _ => true) (Op.push 7) Reachable.new
  exact ⟨hr, (C9_deref_exposes_live 1 1 _ hr).1⟩

end MyVec
